import Mathlib

/-!
Verification of the Command Ingestion & Conflict-Aware Scheduling Engine of
the `crewai-ollama` teaching-assistant repository.

The Python source is embedded shallowly:

* `DB`     — `src/ollama_swarm/database/db.py` (SQLite store; rows become
  records, SQL queries become filter/sort over row lists, the scoped
  transaction of `_get_connection` becomes `withTransaction`).
* `SMS`    — `src/ollama_swarm/integrations/twilio_sms.py`.
* `SMTP`   — `src/ollama_swarm/integrations/smtp_sender.py`.
* `Mail`   — the command parsing of `src/ollama_swarm/integrations/gmail_imap.py`
  (`COMMAND_PATTERNS` and `_parse_command`, with the concrete Python regexes
  given a direct executable semantics).
* `Cal`    — `src/ollama_swarm/integrations/google_calendar.py`
  (`create_event` / `create_milestone`, the external calendar service being an
  oracle supplied as data).
* `Ingest` — the `run_email_ingest` orchestrator loop of
  `src/ollama_swarm/main.py`.

Datetimes handled by `datetime` objects in Python are modelled as minutes on a
`Nat` axis (only `+ timedelta(hours=1)` arithmetic occurs); datetimes stored as
TEXT keep their string form, compared exactly as SQLite compares TEXT.
-/

namespace CrewOllama

namespace DB

/-- A row of the `nudges` table (`db.py`, `_ensure_tables`). -/
structure Nudge where
  id : Nat
  content : String
  due_datetime : Option String
  priority : String
  status : String
  source : String
  created_at : String
  completed_at : Option String
deriving DecidableEq, Repr

/-- SQLite `ORDER BY due_datetime` (ascending, NULL first) as a relation on
`Option String` keys: NULL sorts before every TEXT value, TEXT values compare
in SQLite's byte order, which for these strings is the lexicographic order. -/
def keyLE : Option String → Option String → Prop
  | none, _ => True
  | some _, none => False
  | some x, some y => x ≤ y

instance : DecidableRel keyLE := fun a b => by
  cases a <;> cases b <;> simp [keyLE] <;> infer_instance

/-- Row order used by `ORDER BY due_datetime` on the `nudges` table. -/
def nudgeLE (a b : Nudge) : Prop := keyLE a.due_datetime b.due_datetime

instance : DecidableRel nudgeLE := fun a b => by
  unfold nudgeLE; infer_instance

instance : IsTotal Nudge nudgeLE :=
  ⟨fun a b => by
    unfold nudgeLE
    cases a.due_datetime <;> cases b.due_datetime <;> simp [keyLE]
    exact le_total _ _⟩

instance : IsTrans Nudge nudgeLE :=
  ⟨fun a b c hab hbc => by
    unfold nudgeLE at *
    cases ha : a.due_datetime <;> cases hb : b.due_datetime <;>
      cases hc : c.due_datetime <;> simp_all [keyLE]
    exact le_trans hab hbc⟩

/-- The row filter of `get_pending_nudges` when `include_future` is false:
`status = 'pending' AND (due_datetime IS NULL OR due_datetime <= now)`. -/
def pendingDueFilter (now : String) (r : Nudge) : Bool :=
  decide (r.status = "pending") &&
    (match r.due_datetime with
     | none => true
     | some d => decide (d ≤ now))

/-- `Database.get_pending_nudges(include_future)` (`db.py` lines 132-150):
select the pending rows (optionally restricted to
`due_datetime IS NULL OR due_datetime <= now`) ordered by `due_datetime`. -/
def getPendingNudges (rows : List Nudge) (includeFuture : Bool) (now : String) :
    List Nudge :=
  if includeFuture then
    List.insertionSort nudgeLE (rows.filter fun r => decide (r.status = "pending"))
  else
    List.insertionSort nudgeLE (rows.filter (pendingDueFilter now))

/-- ASCII lower-casing of a string, character by character; this is the
case-folding SQLite's default `LIKE` applies to both operands. -/
def lowerStr (s : String) : String := String.mk (s.data.map Char.toLower)

/-- SQLite `column LIKE pat || '%'` for a pattern `pat` that itself contains
no `%`/`_` wildcard: a case-insensitive (ASCII) literal-prefix test. -/
def sqlLikeHead (pat s : String) : Bool :=
  (lowerStr pat).data.isPrefixOf (lowerStr s).data

/-- `Database.get_nudges_for_date(date)` (`db.py` lines 152-164):
`status = 'pending' AND due_datetime LIKE date || '%' ORDER BY due_datetime`.
A NULL `due_datetime` never satisfies a `LIKE`. -/
def getNudgesForDate (rows : List Nudge) (date : String) : List Nudge :=
  List.insertionSort nudgeLE
    (rows.filter fun r =>
      decide (r.status = "pending") &&
        (match r.due_datetime with
         | none => false
         | some d => sqlLikeHead date d))

/-- `Database.mark_nudge_sent(nudge_id)` (`db.py` lines 166-173):
`UPDATE nudges SET status = 'sent' WHERE id = ?` — no condition on the
current status. -/
def markNudgeSent (rows : List Nudge) (nudgeId : Nat) : List Nudge :=
  rows.map fun r => if r.id = nudgeId then { r with status := "sent" } else r

/-- `Database.complete_nudge(nudge_id)` (`db.py` lines 175-182):
`UPDATE nudges SET status = 'completed', completed_at = now WHERE id = ?` —
again unconditional on the current status. -/
def completeNudge (rows : List Nudge) (nudgeId : Nat) (now : String) : List Nudge :=
  rows.map fun r =>
    if r.id = nudgeId then { r with status := "completed", completed_at := some now }
    else r

/-- A row of the `email_ingest_log` table. -/
structure LedgerRow where
  message_id : String
  subject : String
  sender : String
  command_type : String
  command_content : Option String
  processed_at : String
  status : String
  error_message : Option String
deriving DecidableEq, Repr

/-- Outcome of one scoped store operation as produced by the
`_get_connection` context manager of `db.py` (lines 26-38): the durable
state afterwards, how many times the connection committed and rolled back,
and the exception re-raised to the caller, if any. -/
structure TxResult (σ : Type) where
  state : σ
  commits : Nat
  rollbacks : Nat
  raised : Option String
deriving Repr

/-- `Database._get_connection` (`db.py` lines 26-38): run the operation body
on the open transaction; commit once if it returns, roll back (discarding the
body's writes) and re-raise if it throws. -/
def withTransaction {σ : Type} (body : σ → Except String σ) (s : σ) : TxResult σ :=
  match body s with
  | .ok s2 => ⟨s2, 1, 0, none⟩
  | .error e => ⟨s, 0, 1, some e⟩

/-- The body of `Database.log_email_ingest` (`db.py` lines 267-288): a single
INSERT into `email_ingest_log`, which SQLite rejects with a UNIQUE-constraint
error when the `message_id` already has a row. -/
def logEmailIngestTx (row : LedgerRow) (rows : List LedgerRow) :
    Except String (List LedgerRow) :=
  if rows.any (fun r => decide (r.message_id = row.message_id)) then
    .error "UNIQUE constraint failed: email_ingest_log.message_id"
  else
    .ok (rows ++ [row])

end DB

/-- The projection of a parsed Google Calendar event that the core reads and
writes (`google_calendar.py`, `_parse_event`): the summary and the event
window.  Times are minutes on a `Nat` axis; rendering a time back to the ISO
string a parsed event carries is an uninterpreted `isoOf : Nat → String`. -/
structure CalEvent where
  summary : String
  start : Nat
  stop : Nat
deriving DecidableEq, Repr

/-- Python string slicing `s[:n]`. -/
def pyTake (n : Nat) (s : String) : String := String.mk (s.data.take n)

namespace SMS

/-- Result dictionary returned by `TwilioSMSClient.send_sms`. -/
structure SmsResult where
  success : Bool
  sid : Option String
  error : Option String
deriving DecidableEq, Repr

/-- Python `to = to or default` followed by `if not to`: `None` and the empty
string are falsy, so the effective recipient is the first truthy value of the
two, or nothing. -/
def resolveRecipient (toArg default_ : Option String) : Option String :=
  let r := match toArg with
           | none => default_
           | some s => if s = "" then default_ else some s
  match r with
  | none => none
  | some s => if s = "" then none else some s

/-- `TwilioSMSClient.send_sms` (`twilio_sms.py` lines 59-83).  The Twilio REST
call is an oracle `outcome` (`.ok sid` on success, `.error e` when the SDK
throws — the method catches the exception and reports it in the result).
Besides the result dictionary it returns the list of message bodies actually
handed to the transport (empty when no recipient is available). -/
def sendSms (toNumber : Option String) (outcome : Except String String)
    (message : String) (toArg : Option String) : SmsResult × List String :=
  match resolveRecipient toArg toNumber with
  | none => (⟨false, none, some "No recipient specified"⟩, [])
  | some _ =>
    match outcome with
    | .ok sid => (⟨true, some sid, none⟩, [message])
    | .error e => (⟨false, none, some e⟩, [message])

/-- The truncation `message[:SMS_LIMIT - 3] + "..."` applied by the composing
senders when `len(message) > SMS_LIMIT` (`SMS_LIMIT = 160`). -/
def truncateSms (m : String) : String :=
  if 160 < m.data.length then String.mk (m.data.take 157 ++ "...".data) else m

/-- `TwilioSMSClient.send_daily_summary` (`twilio_sms.py` lines 85-126). -/
def sendDailySummary (toNumber : Option String) (outcome : Except String String)
    (schedule milestones : List CalEvent) (nudges : List DB.Nudge)
    (toArg : Option String) : SmsResult × List String :=
  let lines₀ : List String :=
    match schedule with
    | [] => []
    | e :: _ =>
      ["Today: " ++ toString schedule.length ++ " classes, starts " ++ pyTake 20 e.summary]
  let urgent := nudges.filter fun n => decide (n.priority = "high" ∨ n.priority = "urgent")
  let lines₁ :=
    match urgent with
    | [] => lines₀
    | n :: _ => lines₀ ++ ["URGENT: " ++ pyTake 40 n.content]
  let lines₂ :=
    match milestones with
    | [] => lines₁
    | m :: _ => lines₁ ++ ["Due soon: " ++ pyTake 30 m.summary]
  let message := String.intercalate " | " lines₂
  sendSms toNumber outcome (truncateSms message) toArg

/-- `TwilioSMSClient.send_conflict_alert` (`twilio_sms.py` lines 128-149). -/
def sendConflictAlert (toNumber : Option String) (outcome : Except String String)
    (event conflict : String) (toArg : Option String) : SmsResult × List String :=
  let message := "CONFLICT: \x27" ++ pyTake 30 event ++ "\x27 conflicts with \x27" ++
    pyTake 30 conflict ++ "\x27. Check email."
  sendSms toNumber outcome (truncateSms message) toArg

/-- `TwilioSMSClient.send_nudge_reminder` (`twilio_sms.py` lines 151-171). -/
def sendNudgeReminder (toNumber : Option String) (outcome : Except String String)
    (nudge : DB.Nudge) (toArg : Option String) : SmsResult × List String :=
  let pre := if nudge.priority = "high" ∨ nudge.priority = "urgent" then "URGENT: " else ""
  sendSms toNumber outcome (truncateSms (pre ++ nudge.content)) toArg

end SMS

namespace SMTP

/-- Result dictionary returned by `SMTPSender.send_email`. -/
structure EmailResult where
  success : Bool
  error : Option String
deriving DecidableEq, Repr

/-- One email message handed to the SMTP transport. -/
structure Sent where
  recipient : String
  subject : String
  body : String
deriving DecidableEq, Repr

/-- `SMTPSender.send_email` (`smtp_sender.py` lines 45-93).  The SMTP session
is an oracle `outcome` (`.error e` when the SDK throws; the method catches the
exception and reports it in the result).  Besides the result dictionary it
returns the messages handed to the transport. -/
def sendEmail (defaultRecipient : Option String) (outcome : Except String Unit)
    (subject body : String) (toArg : Option String) : EmailResult × List Sent :=
  match SMS.resolveRecipient toArg defaultRecipient with
  | none => (⟨false, some "No recipient specified"⟩, [])
  | some r =>
    match outcome with
    | .ok _ => (⟨true, none⟩, [⟨r, subject, body⟩])
    | .error e => (⟨false, some e⟩, [⟨r, subject, body⟩])

/-- The body text built by `SMTPSender.send_conflict_notification`
(`smtp_sender.py` lines 230-272); `isoOf` renders an event start back to the
ISO string carried by the parsed event dictionary. -/
def conflictBody (isoOf : Nat → String) (proposedEvent : String)
    (conflicts : List CalEvent) : String :=
  let conflictList := String.intercalate "\n"
    (conflicts.map fun c => "  - " ++ c.summary ++ " (" ++ isoOf c.start ++ ")")
  "\nCalendar Conflict Detected\n\nThe following event could NOT be added:\n  " ++
    proposedEvent ++ "\n\nIt conflicts with:\n" ++ conflictList ++
    "\n\nPlease resolve the conflict manually.\n\n---\nTeaching Assistant Crew\n        "

/-- `SMTPSender.send_conflict_notification` (`smtp_sender.py` lines 230-272). -/
def sendConflictNotification (defaultRecipient : Option String)
    (outcome : Except String Unit) (isoOf : Nat → String)
    (proposedEvent : String) (conflicts : List CalEvent) (toArg : Option String) :
    EmailResult × List Sent :=
  sendEmail defaultRecipient outcome "[TA] Calendar Conflict Detected"
    (conflictBody isoOf proposedEvent conflicts) toArg

end SMTP

namespace Mail

/-- The whitespace class matched by `\s` in a Python 3 `str` regex (and
stripped by `str.strip()`): ASCII whitespace, the information separators,
NEL, NBSP and the Unicode space/line/paragraph separators. -/
def pyIsSpace (c : Char) : Bool :=
  c.toNat = 32 || c.toNat = 9 || c.toNat = 10 || c.toNat = 13 ||
  c.toNat = 11 || c.toNat = 12 || (28 ≤ c.toNat && c.toNat ≤ 31) ||
  c.toNat = 133 || c.toNat = 160 || c.toNat = 0x1680 ||
  (0x2000 ≤ c.toNat && c.toNat ≤ 0x200a) || c.toNat = 0x2028 ||
  c.toNat = 0x2029 || c.toNat = 0x202f || c.toNat = 0x205f || c.toNat = 0x3000

/-- Python `str.strip()` on a character list. -/
def pyStrip (l : List Char) : List Char :=
  ((l.dropWhile pyIsSpace).reverse.dropWhile pyIsSpace).reverse

/-- Case-insensitive test that `t` starts with the (already lower-case)
pattern characters `p`, as `re.IGNORECASE` compares them. -/
def ciStartsWith : List Char → List Char → Bool
  | [], _ => true
  | _ :: _, [] => false
  | p :: ps, c :: cs => (c.toLower == p) && ciStartsWith ps cs

/-- Length of the maximal run of `\s` characters at the head of `t`. -/
def wsRun (t : List Char) : Nat := (t.takeWhile pyIsSpace).length

/-- Match the literal segments of a command pattern at the head of `t`,
consecutive segments separated by `\s+` (greedy; since every segment starts
with a non-space character only the maximal whitespace run can precede it).
Returns the matched text (original case) and the remaining suffix. -/
def matchSegsAt : List (List Char) → List Char → Option (List Char × List Char)
  | [], t => some ([], t)
  | [seg], t =>
    if ciStartsWith seg t then some (t.take seg.length, t.drop seg.length) else none
  | seg :: seg2 :: segs, t =>
    if ciStartsWith seg t then
      let t1 := t.drop seg.length
      let w := wsRun t1
      if w = 0 then none
      else
        match matchSegsAt (seg2 :: segs) (t1.drop w) with
        | some (m, rest) => some (t.take seg.length ++ t1.take w ++ m, rest)
        | none => none
    else none

/-- Backtracking of the greedy `\s*` before `(.+)`: starting from the end of
the whitespace run, find the largest offset `j` (at most the run length) at
which a character exists and is not a newline, so that `.+` can start there.
-/
def backtrackStart (rest : List Char) : Nat → Option Nat
  | 0 =>
    match rest with
    | [] => none
    | c :: _ => if c = '\n' then none else some 0
  | j + 1 =>
    if h : j + 1 < rest.length then
      if rest.get ⟨j + 1, h⟩ ≠ '\n' then some (j + 1) else backtrackStart rest j
    else backtrackStart rest j

/-- The `\s*(.+)` tail of the three capturing command patterns applied to the
suffix `rest`: greedy whitespace, then a greedy non-empty run of non-newline
characters as group 1.  Returns `(consumed text, group 1)`. -/
def capTailAt (rest : List Char) : Option (List Char × List Char) :=
  match backtrackStart rest (wsRun rest) with
  | some j =>
    let g1 := (rest.drop j).takeWhile (fun c => c ≠ '\n')
    some (rest.take j ++ g1, g1)
  | none => none

/-- Try a whole capturing pattern (literal segments, then `\s*(.+)`) at the
head of `t`, returning `(group 0, group 1)`. -/
def searchCapAt (segs : List (List Char)) (t : List Char) :
    Option (List Char × List Char) :=
  match matchSegsAt segs t with
  | some (m, rest) =>
    match capTailAt rest with
    | some (tail, g1) => some (m ++ tail, g1)
    | none => none
  | none => none

/-- `re.search` for a capturing command pattern: the leftmost position where
the pattern matches wins. -/
def searchCap (segs : List (List Char)) : List Char → Option (List Char × List Char)
  | [] => searchCapAt segs []
  | c :: rest =>
    match searchCapAt segs (c :: rest) with
    | some r => some r
    | none => searchCap segs rest

/-- Try the pattern `TODAY\??` at the head of `t` (no capturing group; the
optional `?` is taken greedily). -/
def searchTodayAt (t : List Char) : Option (List Char) :=
  if ciStartsWith "today".data t then
    match t.drop 5 with
    | '?' :: _ => some (t.take 6)
    | _ => some (t.take 5)
  else none

/-- `re.search` for the pattern `TODAY\??`. -/
def searchToday : List Char → Option (List Char)
  | [] => searchTodayAt []
  | c :: rest =>
    match searchTodayAt (c :: rest) with
    | some r => some r
    | none => searchToday rest

/-- The command dictionary produced by `GmailIMAPClient._parse_command`. -/
structure Command where
  type : String
  content : Option String
  rawMatch : Option String
deriving DecidableEq, Repr

/-- Literal segments of `ADD\s+NUDGE:\s*(.+)` (`COMMAND_PATTERNS`). -/
def addNudgeSegs : List (List Char) := ["add".data, "nudge:".data]

/-- Literal segments of `ADD\s+MILESTONE:\s*(.+)`. -/
def addMilestoneSegs : List (List Char) := ["add".data, "milestone:".data]

/-- Literal segments of `NOTE:\s*(.+)`. -/
def noteSegs : List (List Char) := ["note:".data]

/-- `GmailIMAPClient._parse_command` on the already-concatenated text
(`gmail_imap.py` lines 189-216): try the patterns in the fixed
`COMMAND_PATTERNS` order (`add_nudge`, `add_milestone`, `note`, `today`);
on the first match return its kind with `group(1).strip()` as content (the
`today` pattern has no group, so its content is null); otherwise return
`unknown` with null content and null raw match. -/
def parseText (text : List Char) : Command :=
  match searchCap addNudgeSegs text with
  | some (raw, g1) => ⟨"add_nudge", some (String.mk (pyStrip g1)), some (String.mk raw)⟩
  | none =>
  match searchCap addMilestoneSegs text with
  | some (raw, g1) => ⟨"add_milestone", some (String.mk (pyStrip g1)), some (String.mk raw)⟩
  | none =>
  match searchCap noteSegs text with
  | some (raw, g1) => ⟨"note", some (String.mk (pyStrip g1)), some (String.mk raw)⟩
  | none =>
  match searchToday text with
  | some raw => ⟨"today", none, some (String.mk raw)⟩
  | none => ⟨"unknown", none, none⟩

/-- `_parse_command` proper: the text searched is
`f"{subject} {body}"` — subject, one space, body. -/
def parseCommand (subject body : String) : Command :=
  parseText (subject.data ++ ' ' :: body.data)

end Mail

namespace Cal

/-- The external Google Calendar service behind `GoogleCalendarClient`,
as an oracle: what `events().list` returns over a window, what
`events().insert` does (`.error` when the API call throws), and what
`get_teaching_schedule` returns. -/
structure Port where
  readWindow : Nat → Nat → List CalEvent
  insertOutcome : CalEvent → Except String Unit
  todaySchedule : List CalEvent

/-- Return value of `create_event` (`google_calendar.py`): either
`{"success": True, "event": ...}` or
`{"success": False, "reason": "conflict", "conflicts": [...]}`. -/
inductive CreateResult
  | created (e : CalEvent)
  | conflict (es : List CalEvent)
deriving DecidableEq, Repr

/-- Calendar writes performed by one `create_event` call: the events the API
reported as created, and how many times `events().insert` was invoked. -/
structure WriteTrace where
  created : List CalEvent
  insertCalls : Nat
deriving DecidableEq, Repr

/-- `GoogleCalendarClient.create_event` (`google_calendar.py` lines 204-267):
default the end time to one hour after the start; when `check_conflicts` is
set, first read the events in `[start, end)` via `check_conflict` and, if any
exist, return the conflict result without writing; otherwise call the insert
API and return the created event. -/
def createEvent (port : Port) (summary : String) (startT : Nat)
    (stopT : Option Nat) (checkConflicts : Bool) :
    (Except String CreateResult) × WriteTrace :=
  let stop := stopT.getD (startT + 60)
  let doInsert : Unit → (Except String CreateResult) × WriteTrace := fun _ =>
    let ev : CalEvent := ⟨summary, startT, stop⟩
    match port.insertOutcome ev with
    | .ok _ => (.ok (.created ev), ⟨[ev], 1⟩)
    | .error e => (.error e, ⟨[], 1⟩)
  if checkConflicts then
    let conflicts := port.readWindow startT stop
    if conflicts.isEmpty then doInsert ()
    else (.ok (.conflict conflicts), ⟨[], 0⟩)
  else doInsert ()

/-- `GoogleCalendarClient.create_milestone` (`google_calendar.py` lines
269-293): `create_event` with summary `"[MILESTONE] " + title`, the window
`[due, due + 1h)` and conflict checking on. -/
def createMilestone (port : Port) (title : String) (due : Nat) :
    (Except String CreateResult) × WriteTrace :=
  createEvent port ("[MILESTONE] " ++ title) due (some (due + 60)) true

end Cal

namespace Ingest

/-- A row of the `notes` table (`db.py`, `_ensure_tables`). -/
structure NoteRow where
  id : Nat
  content : String
  tags : Option String
  source : String
  created_at : String
deriving DecidableEq, Repr

/-- One unread trigger email as handed to the loop of `run_email_ingest`
(`main.py` lines 186-191): the stable message id, headers, and the command
dictionary attached by `GmailIMAPClient._parse_command`. -/
structure MsgIn where
  messageId : String
  subject : String
  sender : String
  cmdType : String
  cmdContent : Option String
deriving DecidableEq, Repr

/-- The durable and outward-visible state touched by one ingest run: the
three store tables it writes, the calendar events created through the
Calendar API, and the notifications handed to the email/SMS transports.
`nextNudgeId`/`nextNoteId` model the AUTOINCREMENT surrogate keys. -/
structure State where
  nudges : List DB.Nudge
  nextNudgeId : Nat
  notes : List NoteRow
  nextNoteId : Nat
  ledger : List DB.LedgerRow
  calendarCreated : List CalEvent
  calendarInsertCalls : Nat
  emailsSent : List SMTP.Sent
  smsSent : List String
deriving DecidableEq, Repr

/-- The collaborators of `run_email_ingest` (`main.py` lines 157-177):
the clock, the best-effort `parse_datetime_from_text` (total — it catches
every exception and returns `None`), the ISO rendering of a datetime, the
calendar client if it could be constructed and authenticated, the SMTP and
SMS clients if their credentials were present (each carrying its configured
default recipient and its transport outcome), and the LLM crew, which may
throw. -/
structure Env where
  now : String
  parseDT : String → Option Nat
  isoOf : Nat → String
  calendar : Option Cal.Port
  smtp : Option (Option String × Except String Unit)
  sms : Option (Option String × Except String String)
  crewQuick : List CalEvent → List DB.Nudge → Except String String

/-- `Database.is_email_processed` (`db.py` lines 290-298): an existence
check of `message_id` in `email_ingest_log`. -/
def isEmailProcessed (ledger : List DB.LedgerRow) (mid : String) : Bool :=
  ledger.any fun r => decide (r.message_id = mid)

/-- The `email_ingest_log` row written by `db.log_email_ingest` for a
message (`main.py` lines 273-292). -/
def mkLedgerRow (env : Env) (m : MsgIn) (status : String) (err : Option String) :
    DB.LedgerRow :=
  ⟨m.messageId, m.subject, m.sender, m.cmdType, m.cmdContent, env.now, status, err⟩

/-- The body of the `try` block of `run_email_ingest` up to (not including)
the `status="processed"` ledger write (`main.py` lines 202-270): dispatch on
the command type, mutating the store / calendar / notification traces, and
return the state reached together with the message of the exception that
escaped the branch, if any.  Each store insert is its own committed
transaction, so writes made before a later exception persist.  An insert of
a NULL `content` violates the table's NOT NULL constraint and throws. -/
def execCommand (env : Env) (s : State) (m : MsgIn) : State × Option String :=
  if m.cmdType = "add_nudge" then
    match m.cmdContent with
    | none => (s, some "NOT NULL constraint failed: nudges.content")
    | some c =>
      let due := (env.parseDT c).map env.isoOf
      ({ s with
          nudges := s.nudges ++
            [⟨s.nextNudgeId, c, due, "normal", "pending", "email", env.now, none⟩],
          nextNudgeId := s.nextNudgeId + 1 }, none)
  else if m.cmdType = "add_milestone" then
    match env.calendar, m.cmdContent.bind env.parseDT with
    | some port, some due =>
      let res := Cal.createMilestone port (m.cmdContent.getD "") due
      let s1 := { s with
          calendarCreated := s.calendarCreated ++ res.2.created,
          calendarInsertCalls := s.calendarInsertCalls + res.2.insertCalls }
      match res.1 with
      | .error e => (s1, some e)
      | .ok (.created _) => (s1, none)
      | .ok (.conflict conflicts) =>
        let s2 :=
          match env.smtp with
          | none => s1
          | some (defTo, outcome) =>
            { s1 with emailsSent := s1.emailsSent ++
                (SMTP.sendConflictNotification defTo outcome env.isoOf
                  (m.cmdContent.getD "") conflicts none).2 }
        match env.sms, conflicts with
        | some (defTo, outcome), c0 :: _ =>
          ({ s2 with smsSent := s2.smsSent ++
              (SMS.sendConflictAlert defTo outcome (m.cmdContent.getD "")
                c0.summary none).2 }, none)
        | _, _ => (s2, none)
    | _, _ => (s, none)
  else if m.cmdType = "note" then
    match m.cmdContent with
    | none => (s, some "NOT NULL constraint failed: notes.content")
    | some c =>
      ({ s with
          notes := s.notes ++ [⟨s.nextNoteId, c, none, "email", env.now⟩],
          nextNoteId := s.nextNoteId + 1 }, none)
  else if m.cmdType = "today" then
    let schedule := match env.calendar with
                    | some port => port.todaySchedule
                    | none => []
    let nudges := DB.getPendingNudges s.nudges true env.now
    match env.crewQuick schedule nudges with
    | .error e => (s, some e)
    | .ok response =>
      match env.smtp with
      | none => (s, none)
      | some (defTo, outcome) =>
        ({ s with emailsSent := s.emailsSent ++
            (SMTP.sendEmail defTo outcome "[TA] Today\x27s Status" response
              (some m.sender)).2 }, none)
  else (s, none)

/-- One iteration of the message loop of `run_email_ingest` (`main.py`
lines 186-292): skip entirely when the ledger already has the message id;
otherwise run the command branch and append exactly one ledger row —
`status="processed"` when the branch returned, `status="error"` with the
captured message when it threw. -/
def processMessage (env : Env) (s : State) (m : MsgIn) : State :=
  if isEmailProcessed s.ledger m.messageId then s
  else
    let r := execCommand env s m
    match r.2 with
    | none => { r.1 with ledger := r.1.ledger ++ [mkLedgerRow env m "processed" none] }
    | some e => { r.1 with ledger := r.1.ledger ++ [mkLedgerRow env m "error" (some e)] }

/-- The whole batch loop: messages are processed strictly one at a time, in
order; no outcome of one message stops the rest of the batch. -/
def runBatch (env : Env) (s : State) : List MsgIn → State
  | [] => s
  | m :: ms => runBatch env (processMessage env s m) ms

end Ingest

/-! Concrete sample data used to instantiate the theorems below on closed
inputs. -/

/-- An environment whose LLM crew call succeeds; no calendar, SMTP or SMS
client could be constructed. -/
def c1Env : Ingest.Env :=
  ⟨"2025-02-06T06:00:00", fun _ => none, fun _ => "", none, none, none,
    fun _ _ => .ok "All clear today."⟩

/-- A ledger row recording that message `m1` was already processed. -/
def c1Row : DB.LedgerRow :=
  ⟨"m1", "[TA] TODAY", "teacher@school.edu", "today", none,
    "2025-02-05T09:00:00", "processed", none⟩

/-- A store state whose ingest ledger already contains message `m1`. -/
def c1State : Ingest.State := ⟨[], 1, [], 1, [c1Row], [], 0, [], []⟩

/-- The message `m1` arriving a second time. -/
def c1Msg : Ingest.MsgIn :=
  ⟨"m1", "[TA] TODAY", "teacher@school.edu", "today", none⟩

/-- A calendar whose window read reports one existing event. -/
def c2Port : Cal.Port :=
  ⟨fun _ _ => [⟨"Period 1 - Engineering Design", 960, 990⟩], fun _ => .ok (), []⟩

/-- An environment whose LLM crew call throws. -/
def c3Env : Ingest.Env :=
  ⟨"2025-02-06T06:00:00", fun _ => none, fun _ => "", none, none, none,
    fun _ _ => .error "ollama connection refused"⟩

/-- An empty initial store state. -/
def c3State : Ingest.State := ⟨[], 1, [], 1, [], [], 0, [], []⟩

/-- A fresh `today` query message. -/
def c3Msg : Ingest.MsgIn :=
  ⟨"m9", "[TA] TODAY?", "teacher@school.edu", "today", none⟩

/-- A reminder that has already been completed. -/
def c4CompletedRow : DB.Nudge :=
  ⟨1, "grade quizzes", none, "normal", "completed", "manual",
    "2025-02-01T08:00:00", some "2025-02-02T09:00:00"⟩

/-- An SMS body of 161 characters. -/
def longSmsBody : String := String.mk (List.replicate 161 'a')

/-- A ledger row used to exercise the UNIQUE constraint on `message_id`. -/
def c7Row : DB.LedgerRow :=
  ⟨"m1", "[TA] NOTE: x", "teacher@school.edu", "note", some "x",
    "2025-02-05T09:00:00", "processed", none⟩

/-- A pending reminder due in the past. -/
def c8r1 : DB.Nudge :=
  ⟨1, "print rubrics", some "2025-02-05T07:15:00", "normal", "pending",
    "email", "2025-02-04T12:00:00", none⟩

/-- A pending reminder with no due time. -/
def c8r2 : DB.Nudge :=
  ⟨2, "order filament", none, "normal", "pending", "manual",
    "2025-02-04T12:30:00", none⟩

/-- A completed reminder. -/
def c8r3 : DB.Nudge :=
  ⟨3, "email parents", some "2025-02-01T08:00:00", "high", "completed",
    "manual", "2025-01-30T12:00:00", some "2025-02-01T09:00:00"⟩

/-- A pending reminder due far in the future. -/
def c8r4 : DB.Nudge :=
  ⟨4, "plan field trip", some "2099-01-01T08:00:00", "low", "pending",
    "manual", "2025-02-04T13:00:00", none⟩

/-- A small `nudges` table. -/
def c8Rows : List DB.Nudge := [c8r1, c8r2, c8r3, c8r4]

/-- A pending reminder due on 2025-02-05. -/
def c9Row : DB.Nudge :=
  ⟨1, "grade quizzes", some "2025-02-05T16:00:00", "normal", "pending",
    "email", "2025-02-04T12:00:00", none⟩

/-! ### Helper lemmas -/

/-- Every message body the composing SMS senders pass to `send_sms` has been
bounded by `truncateSms`, which never yields more than 160 characters. -/
theorem truncateSms_length_le (m : String) : (SMS.truncateSms m).data.length ≤ 160 := by
  unfold SMS.truncateSms
  split
  · have h1 : (String.mk (m.data.take 157 ++ "...".data)).data =
        m.data.take 157 ++ "...".data := rfl
    have h2 : ("...".data).length = 3 := rfl
    rw [h1, List.length_append, List.length_take, h2]
    omega
  · omega

/-- `send_sms` transmits either nothing or exactly its argument. -/
theorem sendSms_all_le (toNumber : Option String) (outcome : Except String String)
    (msg : String) (toArg : Option String) (h : msg.data.length ≤ 160) :
    ((SMS.sendSms toNumber outcome msg toArg).2.all
      fun b => b.data.length ≤ 160) = true := by
  unfold SMS.sendSms
  cases SMS.resolveRecipient toArg toNumber <;> cases outcome <;> simp_all

/-- A `Nat` below the surrogate range round-trips through `Char.ofNat`. -/
theorem char_toNat_ofNat {n : Nat} (h : n < 55296) : (Char.ofNat n).toNat = n := by
  have hv : n.isValidChar := Or.inl h
  simp [Char.ofNat, hv, Char.ofNatAux, Char.toNat, UInt32.toNat, BitVec.toNat_ofNatLt]

/-- A character outside `A`-`Z` is fixed by `Char.toLower`. -/
theorem toLower_eq_self_of_not_upper {c : Char}
    (h : ¬(65 ≤ c.toNat ∧ c.toNat ≤ 90)) : c.toLower = c := by
  simp only [Char.toLower, Char.toNat]
  split
  · exact absurd (by assumption) h
  · rfl

/-- Digits and the hyphen sit below the upper-case range. -/
theorem toNat_le_of_digit_or_dash {c : Char} (hc : c.isDigit = true ∨ c = '-') :
    c.toNat ≤ 57 := by
  rcases hc with h | h
  · simp [Char.isDigit] at h
    exact h.2
  · subst h; decide

/-- For a digit or hyphen `c`, a character lower-cases to `c` exactly when it
already is `c` (`A`-`Z` lower-case into `a`-`z`, never into `c`). -/
theorem toLower_eq_digit_iff {c x : Char} (hc : c.isDigit = true ∨ c = '-') :
    x.toLower = c ↔ x = c := by
  have hcn : c.toNat ≤ 57 := toNat_le_of_digit_or_dash hc
  constructor
  · intro h
    by_cases hx : 65 ≤ x.toNat ∧ x.toNat ≤ 90
    · exfalso
      have hlow : x.toLower = Char.ofNat (x.toNat + 32) := by
        simp only [Char.toLower, Char.toNat]
        rw [if_pos]
        exact hx
      rw [hlow] at h
      have h2 : (Char.ofNat (x.toNat + 32)).toNat = c.toNat := by rw [h]
      rw [char_toNat_ofNat (by omega)] at h2
      omega
    · rwa [toLower_eq_self_of_not_upper hx] at h
  · intro h
    subst h
    exact toLower_eq_self_of_not_upper (by omega)

/-- A string of digits and hyphens is fixed by per-character lower-casing. -/
theorem map_toLower_digits {p : List Char}
    (hp : ∀ c ∈ p, c.isDigit = true ∨ c = '-') : p.map Char.toLower = p := by
  induction p with
  | nil => rfl
  | cons c cs ih =>
    have hc := hp c (by simp)
    have : c.toLower = c :=
      toLower_eq_self_of_not_upper (by have := toNat_le_of_digit_or_dash hc; omega)
    simp [this, ih fun d hd => hp d (by simp [hd])]

/-- Lower-casing the subject string does not change whether a digit-and-hyphen
pattern is a prefix of it. -/
theorem isPrefixOf_map_toLower {p : List Char} (s : List Char)
    (hp : ∀ c ∈ p, c.isDigit = true ∨ c = '-') :
    p.isPrefixOf (s.map Char.toLower) = p.isPrefixOf s := by
  induction p generalizing s with
  | nil => simp [List.isPrefixOf]
  | cons c cs ih =>
    cases s with
    | nil => simp [List.isPrefixOf]
    | cons x xs =>
      have hc := hp c (by simp)
      by_cases h : x = c
      · subst h
        have hfix : x.toLower = x :=
          toLower_eq_self_of_not_upper
            (by have := toNat_le_of_digit_or_dash hc; omega)
        simp only [List.map_cons, List.isPrefixOf, hfix,
          ih xs fun d hd => hp d (by simp [hd])]
      · have h2 : x.toLower ≠ c := fun hl => h ((toLower_eq_digit_iff hc).mp hl)
        have hb1 : (c == x.toLower) = false := by
          simp only [beq_eq_false_iff_ne]
          exact fun hcx => h2 hcx.symm
        have hb2 : (c == x) = false := by
          simp only [beq_eq_false_iff_ne]
          exact fun hcx => h hcx.symm
        simp only [List.map_cons, List.isPrefixOf, hb1, hb2, Bool.false_and]

/-- `LIKE date || '%'` for a wildcard-free digit-and-hyphen date is exactly
the literal prefix test. -/
theorem sqlLikeHead_eq_isPrefixOf {date : String} (d : String)
    (hd : ∀ c ∈ date.data, c.isDigit = true ∨ c = '-') :
    DB.sqlLikeHead date d = date.data.isPrefixOf d.data := by
  unfold DB.sqlLikeHead DB.lowerStr
  simp only [String.mk]
  rw [map_toLower_digits hd, isPrefixOf_map_toLower _ hd]

/-- A freshly appended ledger row makes its own message id processed. -/
theorem isEmailProcessed_append (l : List DB.LedgerRow) (env : Ingest.Env)
    (m : Ingest.MsgIn) (st : String) (e : Option String) :
    Ingest.isEmailProcessed (l ++ [Ingest.mkLedgerRow env m st e]) m.messageId = true := by
  simp [Ingest.isEmailProcessed, Ingest.mkLedgerRow]

/-- When the window read returns events, `create_milestone` yields the
conflict result over exactly those events and performs no insert. -/
theorem createMilestone_conflict (port : Cal.Port) (title : String) (due : Nat)
    (h : port.readWindow due (due + 60) ≠ []) :
    Cal.createMilestone port title due =
      (.ok (.conflict (port.readWindow due (due + 60))), ⟨[], 0⟩) := by
  simp [Cal.createMilestone, Cal.createEvent, List.isEmpty_iff, h]

/-- The command branch of `run_email_ingest` never writes to the ingest
ledger: only the trailing `log_email_ingest` calls do. -/
theorem execCommand_ledger (env : Ingest.Env) (s : Ingest.State) (m : Ingest.MsgIn) :
    ((Ingest.execCommand env s m).1).ledger = s.ledger := by
  simp only [Ingest.execCommand]
  repeat' split
  all_goals rfl

/-! ### Claim theorems -/

/-- Claim C10: when no recipient is passed and no default recipient is
configured, `send_sms` and `send_email` both return the failure result
`{success: false, error: "No recipient specified"}`, hand nothing to their
transport, and do not raise (they are plain returns). -/
theorem c10_no_recipient (emailOutcome : Except String Unit)
    (smsOutcome : Except String String) (subject body msg : String) :
    SMTP.sendEmail none emailOutcome subject body none =
      (⟨false, some "No recipient specified"⟩, []) ∧
    SMS.sendSms none smsOutcome msg none =
      (⟨false, none, some "No recipient specified"⟩, []) :=
  ⟨rfl, rfl⟩

/-- Claim C7: every store write wrapped by `_get_connection` is atomic — if
the operation body throws, the transaction rolls back (the durable state is
unchanged), commits zero times and the exception propagates; if it returns,
the transaction commits exactly once with the body's result.  Instantiated
on `log_email_ingest`, whose UNIQUE `message_id` constraint makes the body
throw: no partial row is left behind. -/
theorem c7_transaction_atomic (σ : Type) (body : σ → Except String σ) (s : σ) :
    (∀ e, body s = .error e →
        DB.withTransaction body s = ⟨s, 0, 1, some e⟩) ∧
    (∀ s2, body s = .ok s2 →
        DB.withTransaction body s = ⟨s2, 1, 0, none⟩) ∧
    (∀ (row : DB.LedgerRow) (rows : List DB.LedgerRow),
      (rows.any (fun r => decide (r.message_id = row.message_id)) = true →
          DB.withTransaction (DB.logEmailIngestTx row) rows =
            ⟨rows, 0, 1, some "UNIQUE constraint failed: email_ingest_log.message_id"⟩) ∧
      (rows.any (fun r => decide (r.message_id = row.message_id)) = false →
          DB.withTransaction (DB.logEmailIngestTx row) rows =
            ⟨rows ++ [row], 1, 0, none⟩)) := by
  refine ⟨?_, ?_, ?_⟩
  · intro e he
    simp [DB.withTransaction, he]
  · intro s2 hs
    simp [DB.withTransaction, hs]
  · intro row rows
    constructor
    · intro hdup
      simp [DB.withTransaction, DB.logEmailIngestTx, hdup]
    · intro hdup
      simp [DB.withTransaction, DB.logEmailIngestTx, hdup]

/-- Witness for C7 at a concrete duplicate insert: re-logging `m1` rolls the
ledger back unchanged and surfaces the UNIQUE-constraint error. -/
theorem c7_transaction_atomic_witness :
    DB.withTransaction (DB.logEmailIngestTx c7Row) [c7Row] =
      ⟨[c7Row], 0, 1, some "UNIQUE constraint failed: email_ingest_log.message_id"⟩ :=
  ((c7_transaction_atomic (List DB.LedgerRow) (DB.logEmailIngestTx c7Row)
      [c7Row]).2.2 c7Row [c7Row]).1 (by decide)

/-- Counterexample to claim C5 as stated: a 161-character body passed
directly to `send_sms` (the Notification Port's `sendSms` operation) is
handed to the Twilio transport untruncated, so not every dispatched SMS body
is at most 160 characters. -/
theorem c5_counterexample :
    ((SMS.sendSms (some "+15550100") (.ok "SM1") longSmsBody none).2.all
        fun b => b.data.length ≤ 160) = false ∧
    (SMS.sendSms (some "+15550100") (.ok "SM1") longSmsBody none).2 =
      [longSmsBody] ∧
    longSmsBody.data.length = 161 := by
  have hlen : longSmsBody.data.length = 161 := by
    show (List.replicate 161 'a').length = 161
    simp
  refine ⟨?_, rfl, hlen⟩
  have : (SMS.sendSms (some "+15550100") (.ok "SM1") longSmsBody none).2 =
      [longSmsBody] := rfl
  rw [this]
  simp only [List.all_cons, List.all_nil, Bool.and_true, decide_eq_false_iff_not,
    Nat.not_le]
  omega

/-- Claim C5 (amended): the truncation to 157 characters plus an ellipsis is
applied by the composing senders — `send_daily_summary`,
`send_conflict_alert` and `send_nudge_reminder` — before they call
`send_sms`, so every body those methods dispatch is at most 160 characters;
`send_sms` itself transmits its argument verbatim. -/
theorem c5_composed_sms_bounded (toNumber : Option String)
    (outcome : Except String String) (schedule milestones : List CalEvent)
    (nudges : List DB.Nudge) (toArg : Option String)
    (event conflict : String) (nudge : DB.Nudge) :
    ((SMS.sendDailySummary toNumber outcome schedule milestones nudges toArg).2.all
        fun b => b.data.length ≤ 160) = true ∧
    ((SMS.sendConflictAlert toNumber outcome event conflict toArg).2.all
        fun b => b.data.length ≤ 160) = true ∧
    ((SMS.sendNudgeReminder toNumber outcome nudge toArg).2.all
        fun b => b.data.length ≤ 160) = true := by
  refine ⟨?_, ?_, ?_⟩
  · exact sendSms_all_le _ _ _ _ (truncateSms_length_le _)
  · exact sendSms_all_le _ _ _ _ (truncateSms_length_le _)
  · exact sendSms_all_le _ _ _ _ (truncateSms_length_le _)

/-- Counterexample to claim C4 as stated: `mark_nudge_sent` updates the row
unconditionally, so a reminder already in status `completed` transitions
backwards to `sent` — a transition the claim says can never occur. -/
theorem c4_counterexample :
    c4CompletedRow.status = "completed" ∧
    (DB.markNudgeSent [c4CompletedRow] 1).map (fun r => r.status) = ["sent"] := by
  exact ⟨rfl, rfl⟩

/-- Claim C4 (amended): `mark_nudge_sent` sets the matching reminder's status
to `sent` and `complete_nudge` sets it to `completed` stamping `completedAt`,
in both cases regardless of the reminder's previous status (so pending→sent
and pending/sent→completed are produced as described, but the operations do
not guard against backward transitions such as completed→sent); rows with a
different id are untouched. -/
theorem c4_update_unconditional (rows : List DB.Nudge) (nudgeId : Nat)
    (now : String) (i : Nat) (r : DB.Nudge) (h : rows[i]? = some r) :
    (DB.markNudgeSent rows nudgeId)[i]? =
      some (if r.id = nudgeId then { r with status := "sent" } else r) ∧
    (DB.completeNudge rows nudgeId now)[i]? =
      some (if r.id = nudgeId then
        { r with status := "completed", completed_at := some now } else r) := by
  constructor
  · simp [DB.markNudgeSent, List.getElem?_map, h]
  · simp [DB.completeNudge, List.getElem?_map, h]

/-- Witness for the amended C4 at the concrete completed row. -/
theorem c4_update_unconditional_witness :
    (DB.markNudgeSent [c4CompletedRow] 1)[0]? =
      some (if c4CompletedRow.id = 1 then
        { c4CompletedRow with status := "sent" } else c4CompletedRow) ∧
    (DB.completeNudge [c4CompletedRow] 1 "2025-03-01T08:00:00")[0]? =
      some (if c4CompletedRow.id = 1 then
        { c4CompletedRow with status := "completed", completed_at := some "2025-03-01T08:00:00" } else c4CompletedRow) :=
  c4_update_unconditional [c4CompletedRow] 1 "2025-03-01T08:00:00" 0
    c4CompletedRow rfl

/-- Claim C8: `get_pending_nudges` returns exactly the rows with status
`pending` (as a permutation of the filtered table, so no row is dropped or
duplicated), ordered by `due_datetime` ascending with NULL sorting first;
with `include_future = false` it keeps exactly the pending rows whose
`due_datetime` is NULL or not after the call time, so strictly-future rows
are excluded while NULL-due rows are still included. -/
theorem c8_pending_nudges (rows : List DB.Nudge) (now : String) :
    (DB.getPendingNudges rows true now).Perm
        (rows.filter fun r => decide (r.status = "pending")) ∧
    (DB.getPendingNudges rows false now).Perm
        (rows.filter (DB.pendingDueFilter now)) ∧
    List.Sorted DB.nudgeLE (DB.getPendingNudges rows true now) ∧
    List.Sorted DB.nudgeLE (DB.getPendingNudges rows false now) ∧
    (∀ x, x ∈ DB.getPendingNudges rows true now ↔
        x ∈ rows ∧ x.status = "pending") ∧
    (∀ x, x ∈ DB.getPendingNudges rows false now ↔
        x ∈ rows ∧ x.status = "pending" ∧
          (x.due_datetime = none ∨ ∃ d, x.due_datetime = some d ∧ d ≤ now)) := by
  refine ⟨?_, ?_, ?_, ?_, ?_, ?_⟩
  · simpa [DB.getPendingNudges] using
      List.perm_insertionSort DB.nudgeLE
        (rows.filter fun r => decide (r.status = "pending"))
  · simpa [DB.getPendingNudges] using
      List.perm_insertionSort DB.nudgeLE (rows.filter (DB.pendingDueFilter now))
  · simpa [DB.getPendingNudges] using
      List.sorted_insertionSort DB.nudgeLE
        (rows.filter fun r => decide (r.status = "pending"))
  · simpa [DB.getPendingNudges] using
      List.sorted_insertionSort DB.nudgeLE (rows.filter (DB.pendingDueFilter now))
  · intro x
    simp [DB.getPendingNudges, List.mem_insertionSort, List.mem_filter,
      and_comm]
  · intro x
    simp only [DB.getPendingNudges, if_neg (by simp : ¬(false : Bool) = true),
      List.mem_insertionSort, List.mem_filter, DB.pendingDueFilter,
      Bool.and_eq_true, decide_eq_true_eq]
    cases hd : x.due_datetime with
    | none => simp [hd, and_assoc]
    | some d =>
      simp only [hd, decide_eq_true_eq]
      constructor
      · rintro ⟨h1, h2, h3⟩
        exact ⟨h1, h2, Or.inr ⟨d, rfl, h3⟩⟩
      · rintro ⟨h1, h2, h3 | ⟨d2, hd2, h3⟩⟩
        · exact absurd h3 (by simp)
        · cases hd2
          exact ⟨h1, h2, h3⟩

/-- Witness for C8: in the concrete table, the NULL-due pending row is kept
by `include_future = false` even though another pending row lies in the
future. -/
theorem c8_pending_nudges_witness :
    c8r2 ∈ DB.getPendingNudges c8Rows false "2025-02-06T00:00:00" :=
  ((c8_pending_nudges c8Rows "2025-02-06T00:00:00").2.2.2.2.2 c8r2).mpr
    ⟨by decide, rfl, Or.inl rfl⟩

/-- Claim C9: `get_nudges_for_date` selects exactly the pending rows whose
`due_datetime` string starts with the given date string (for the wildcard-free
digit-and-hyphen dates the function is called with, SQLite's case-insensitive
`LIKE date || '%'` is the literal prefix test), ordered by `due_datetime`;
rows with NULL `due_datetime` or a non-matching prefix never appear. -/
theorem c9_nudges_for_date (rows : List DB.Nudge) (date : String)
    (hdate : ∀ c ∈ date.data, c.isDigit = true ∨ c = '-') :
    List.Sorted DB.nudgeLE (DB.getNudgesForDate rows date) ∧
    (∀ x, x ∈ DB.getNudgesForDate rows date ↔
        x ∈ rows ∧ x.status = "pending" ∧
          ∃ d, x.due_datetime = some d ∧ date.data.isPrefixOf d.data = true) ∧
    (∀ x, x ∈ DB.getNudgesForDate rows date → x.due_datetime ≠ none) := by
  refine ⟨?_, ?_, ?_⟩
  · exact List.sorted_insertionSort DB.nudgeLE _
  · intro x
    simp only [DB.getNudgesForDate, List.mem_insertionSort, List.mem_filter,
      Bool.and_eq_true, decide_eq_true_eq]
    cases hd : x.due_datetime with
    | none => simp [hd]
    | some d =>
      rw [show (match some d with
            | none => false
            | some d => DB.sqlLikeHead date d) = DB.sqlLikeHead date d from rfl]
      rw [sqlLikeHead_eq_isPrefixOf d hdate]
      constructor
      · rintro ⟨h1, h2, h3⟩
        exact ⟨h1, h2, d, rfl, h3⟩
      · rintro ⟨h1, h2, d2, hd2, h3⟩
        cases hd2
        exact ⟨h1, h2, h3⟩
  · intro x hx
    simp only [DB.getNudgesForDate, List.mem_insertionSort, List.mem_filter,
      Bool.and_eq_true, decide_eq_true_eq] at hx
    intro hnone
    rw [hnone] at hx
    simp at hx

/-- Witness for C9 at the concrete date 2025-02-05. -/
theorem c9_nudges_for_date_witness :
    c9Row ∈ DB.getNudgesForDate [c9Row] "2025-02-05" :=
  ((c9_nudges_for_date [c9Row] "2025-02-05" (by decide)).2.1 c9Row).mpr
    ⟨by decide, rfl, "2025-02-05T16:00:00", rfl, by decide⟩

/-- Claim C1: ingestion is idempotent per message id — when the message id
already has a ledger row, `run_email_ingest` performs no side effect at all
on the message (no reminder, note, calendar event, notification or ledger
row: the state is unchanged), and consequently processing the same message
twice yields exactly the durable state of processing it once. -/
theorem c1_ingest_idempotent (env : Ingest.Env) (s : Ingest.State)
    (m : Ingest.MsgIn) :
    (Ingest.isEmailProcessed s.ledger m.messageId = true →
        Ingest.processMessage env s m = s) ∧
    Ingest.processMessage env (Ingest.processMessage env s m) m =
      Ingest.processMessage env s m := by
  constructor
  · intro h
    simp [Ingest.processMessage, h]
  · by_cases h : Ingest.isEmailProcessed s.ledger m.messageId
    · simp [Ingest.processMessage, h]
    · have hfst : Ingest.processMessage env s m =
          match (Ingest.execCommand env s m).2 with
          | none => { (Ingest.execCommand env s m).1 with
              ledger := ((Ingest.execCommand env s m).1).ledger ++
                [Ingest.mkLedgerRow env m "processed" none] }
          | some e => { (Ingest.execCommand env s m).1 with
              ledger := ((Ingest.execCommand env s m).1).ledger ++
                [Ingest.mkLedgerRow env m "error" (some e)] } := by
        simp [Ingest.processMessage, h]
      cases hr : (Ingest.execCommand env s m).2 with
      | none =>
        rw [hfst, hr]
        simp only [Ingest.processMessage, isEmailProcessed_append, if_pos]
      | some e =>
        rw [hfst, hr]
        simp only [Ingest.processMessage, isEmailProcessed_append, if_pos]

/-- Witness for C1: re-delivering the already-ledgered message `m1` leaves
the state untouched. -/
theorem c1_ingest_idempotent_witness :
    Ingest.processMessage c1Env c1State c1Msg = c1State :=
  (c1_ingest_idempotent c1Env c1State c1Msg).1 (by decide)

/-- Claim C2: `create_milestone` checks before writing over the window
`[dueAt, dueAt + 1h)` — it reads the events in that window first; when the
set is non-empty it returns the conflict result carrying exactly those
events and performs no calendar write (zero insert calls); only when the
set is empty does it call the event-creation API, and on success it returns
the created event. -/
theorem c2_milestone_checks_before_writing (port : Cal.Port) (title : String)
    (due : Nat) :
    (port.readWindow due (due + 60) ≠ [] →
        Cal.createMilestone port title due =
          (.ok (.conflict (port.readWindow due (due + 60))), ⟨[], 0⟩)) ∧
    (port.readWindow due (due + 60) = [] →
        ∀ u, port.insertOutcome ⟨"[MILESTONE] " ++ title, due, due + 60⟩ = .ok u →
        Cal.createMilestone port title due =
          (.ok (.created ⟨"[MILESTONE] " ++ title, due, due + 60⟩),
            ⟨[⟨"[MILESTONE] " ++ title, due, due + 60⟩], 1⟩)) := by
  constructor
  · exact createMilestone_conflict port title due
  · intro h u hu
    simp [Cal.createMilestone, Cal.createEvent, List.isEmpty_iff, h, hu]

/-- Witness for C2: with one event already in the window, the milestone is
withheld and the conflict result carries that event. -/
theorem c2_milestone_checks_before_writing_witness :
    Cal.createMilestone c2Port "CDR slides due" 960 =
      (.ok (.conflict [⟨"Period 1 - Engineering Design", 960, 990⟩]), ⟨[], 0⟩) :=
  (c2_milestone_checks_before_writing c2Port "CDR slides due" 960).1 (by decide)

/-- Claim C3: when the command branch of `run_email_ingest` throws, the
exception is caught at the per-message boundary and exactly one ledger row
with status `error` carrying the captured message is appended (on top of
whatever partial per-operation commits the branch already made); when the
branch returns — including a milestone withheld by a conflict and an
unparseable date — exactly one `processed` row is appended; and in either
case the batch continues with the remaining messages. -/
theorem c3_error_boundary (env : Ingest.Env) (s : Ingest.State)
    (m : Ingest.MsgIn) (ms : List Ingest.MsgIn)
    (hnew : Ingest.isEmailProcessed s.ledger m.messageId = false) :
    (∀ e, (Ingest.execCommand env s m).2 = some e →
        Ingest.processMessage env s m =
          { (Ingest.execCommand env s m).1 with
              ledger := s.ledger ++ [Ingest.mkLedgerRow env m "error" (some e)] }) ∧
    ((Ingest.execCommand env s m).2 = none →
        Ingest.processMessage env s m =
          { (Ingest.execCommand env s m).1 with
              ledger := s.ledger ++ [Ingest.mkLedgerRow env m "processed" none] }) ∧
    Ingest.runBatch env s (m :: ms) =
      Ingest.runBatch env (Ingest.processMessage env s m) ms ∧
    (∀ (port : Cal.Port) (c : String) (t : Nat),
        env.calendar = some port → m.cmdType = "add_milestone" →
        m.cmdContent = some c → env.parseDT c = some t →
        port.readWindow t (t + 60) ≠ [] →
        (Ingest.execCommand env s m).2 = none) ∧
    (m.cmdType = "add_milestone" → m.cmdContent.bind env.parseDT = none →
        (Ingest.execCommand env s m).2 = none) := by
  refine ⟨?_, ?_, rfl, ?_, ?_⟩
  · intro e he
    simp [Ingest.processMessage, hnew, he, execCommand_ledger]
  · intro he
    simp [Ingest.processMessage, hnew, he, execCommand_ledger]
  · intro port c t hcal htype hcontent hparse hconf
    have hne : ¬m.cmdType = "add_nudge" := by
      rw [htype]; decide
    simp only [Ingest.execCommand, if_neg hne, htype, if_pos rfl, hcal, hcontent,
      Option.some_bind, hparse]
    have hcm := createMilestone_conflict port c t hconf
    rw [show (some c).getD "" = c from rfl, hcm]
    cases henv : env.sms with
    | none => rfl
    | some p =>
      cases p with
      | mk defTo outcome =>
        cases hw : port.readWindow t (t + 60) with
        | nil => exact absurd hw hconf
        | cons c0 cs => rfl
  · intro htype hparse
    have hne : ¬m.cmdType = "add_nudge" := by
      rw [htype]; decide
    simp only [Ingest.execCommand, if_neg hne, htype, if_pos rfl, hparse]
    cases env.calendar <;> rfl

/-- Witness for C3: with the LLM crew throwing on a fresh `today` message,
the run appends exactly the error ledger row and nothing else. -/
theorem c3_error_boundary_witness :
    Ingest.processMessage c3Env c3State c3Msg =
      { c3State with
          ledger := [Ingest.mkLedgerRow c3Env c3Msg "error"
            (some "ollama connection refused")] } :=
  (c3_error_boundary c3Env c3State c3Msg [] rfl).1 "ollama connection refused" rfl

/-- Claim C6: the command parser is total and deterministic — for every
subject and body (including empty strings) it returns exactly one command
whose kind is one of the five; the patterns are tried in the fixed order
`add_nudge`, `add_milestone`, `note`, `today` over the concatenated subject
and body, the first pattern that matches wins and its content is the trimmed
captured payload (`today` captures nothing); when no pattern matches the
result is `unknown` with null content and null raw match. -/
theorem c6_parser_total_first_match (subject body : String) (t : List Char) :
    Mail.parseCommand subject body =
      Mail.parseText (subject.data ++ ' ' :: body.data) ∧
    ((Mail.parseText t).type = "add_nudge" ∨
      (Mail.parseText t).type = "add_milestone" ∨
      (Mail.parseText t).type = "note" ∨
      (Mail.parseText t).type = "today" ∨
      (Mail.parseText t).type = "unknown") ∧
    (∀ raw g1, Mail.searchCap Mail.addNudgeSegs t = some (raw, g1) →
        Mail.parseText t =
          ⟨"add_nudge", some (String.mk (Mail.pyStrip g1)), some (String.mk raw)⟩) ∧
    (Mail.searchCap Mail.addNudgeSegs t = none →
      ∀ raw g1, Mail.searchCap Mail.addMilestoneSegs t = some (raw, g1) →
        Mail.parseText t =
          ⟨"add_milestone", some (String.mk (Mail.pyStrip g1)), some (String.mk raw)⟩) ∧
    (Mail.searchCap Mail.addNudgeSegs t = none →
      Mail.searchCap Mail.addMilestoneSegs t = none →
      ∀ raw g1, Mail.searchCap Mail.noteSegs t = some (raw, g1) →
        Mail.parseText t =
          ⟨"note", some (String.mk (Mail.pyStrip g1)), some (String.mk raw)⟩) ∧
    (Mail.searchCap Mail.addNudgeSegs t = none →
      Mail.searchCap Mail.addMilestoneSegs t = none →
      Mail.searchCap Mail.noteSegs t = none →
      ∀ raw, Mail.searchToday t = some raw →
        Mail.parseText t = ⟨"today", none, some (String.mk raw)⟩) ∧
    (Mail.searchCap Mail.addNudgeSegs t = none →
      Mail.searchCap Mail.addMilestoneSegs t = none →
      Mail.searchCap Mail.noteSegs t = none →
      Mail.searchToday t = none →
      Mail.parseText t = ⟨"unknown", none, none⟩) := by
  refine ⟨rfl, ?_, ?_, ?_, ?_, ?_, ?_⟩
  · unfold Mail.parseText
    cases Mail.searchCap Mail.addNudgeSegs t with
    | some r => cases r; simp
    | none =>
      cases Mail.searchCap Mail.addMilestoneSegs t with
      | some r => cases r; simp
      | none =>
        cases Mail.searchCap Mail.noteSegs t with
        | some r => cases r; simp
        | none =>
          cases Mail.searchToday t with
          | some r => simp
          | none => simp
  · intro raw g1 h
    unfold Mail.parseText
    rw [h]
  · intro h0 raw g1 h
    unfold Mail.parseText
    rw [h0, h]
  · intro h0 h1 raw g1 h
    unfold Mail.parseText
    rw [h0, h1, h]
  · intro h0 h1 h2 raw h
    unfold Mail.parseText
    rw [h0, h1, h2, h]
  · intro h0 h1 h2 h3
    unfold Mail.parseText
    rw [h0, h1, h2, h3]

/-- Witness for C6: the later `today` pattern fires only because the three
capturing patterns fail on `"TODAY?"` (concatenated with an empty body). -/
theorem c6_parser_total_first_match_witness :
    Mail.parseText ("TODAY?".data ++ ' ' :: "".data) =
      ⟨"today", none, some (String.mk "TODAY?".data)⟩ := by
  have h := c6_parser_total_first_match "TODAY?" "" ("TODAY?".data ++ ' ' :: "".data)
  exact h.2.2.2.2.2.1 rfl rfl rfl "TODAY?".data rfl

end CrewOllama
